import Mathlib

/-!
Verification of the LSS-ASI cognitive-agent core against its specification.

The definitions below are a shallow embedding of the TypeScript sources:

* `src/hooks/useLuminousCognition.ts` — the agent turn-loop
  (`processUserMessage`), its error handler, the timer effect, and the
  state-mutation tools (`modifySelfModel`, `readFile`, `deleteFile`), plus
  the debounced delta-save diff (`debouncedSave`) and startup `loadState`.
* `src/services/persistenceService.ts` — the Upstash key-value adapter
  (`migrateFromLegacyState`, `getLuminousState`, `saveCoreStateFields`,
  `getLatestBackupKey`, `restoreStateFromBackup`).
* `src/unnamed/part_010` — an earlier revision of the hook containing the
  `updateIntrinsicValueWeights` tool and the two-timer effect.

Conventions of the embedding:

* JavaScript objects used as string maps become association lists
  `List (String × String)`; `delete obj[k]` becomes a key filter.
* The remote Redis-like store becomes an association list from key names to
  a `RVal` value (string / list / hash).  A JSON blob whose parsed shape the
  code relies on (the legacy whole-state blob, and a backed-up core-state
  object) is represented by its parsed structure (`RVal.legacyBlob`,
  `RVal.coreBlob`); since `JSON.stringify` is injective on these shapes,
  equality of the structures models byte-identity of the stored strings.
* Template literals whose exact characters never matter to the proved
  properties (journal event sentences, the apologetic chat message) are
  represented by tagged constructors carrying their interpolated arguments
  (`EventText`, `CMsg.apiKeyApology`); each constructor stands for exactly
  one template string in the source.
* Network transport is modelled by one explicit boolean success flag per
  remote request, mirroring the source's handling of that request: a
  `fetch` whose `response.ok` is false, or which throws, corresponds to the
  flag being `false`.  Where the source rethrows the failure the model
  returns `Except.error`; where the source swallows it and returns null
  (the legacy-key GET in `migrateFromLegacyState`, the backup-list read in
  `getLatestBackupKey`) the model returns the same null result.
* JavaScript floating-point numbers are modelled by `ℚ`.
-/

namespace LSS

/-! ## Turn loop (`processUserMessage`, useLuminousCognition.ts lines 754-844)

The model is an oracle: each call to `getLuminousResponse` consumes the next
element of a list of pending model responses.  Tool executions are abstracted
to the branch the loop takes on them; the four specially-handled tool names
and the grounding pair are distinguished exactly as the code does. -/

/-- A tool call requested by the model, identified the way the loop's
branching identifies it: the four special-cased names, and every other
registered tool as `other`. -/
inductive GCall where
  | generateImage
  | generateVideo
  | googleSearch
  | googleMaps
  | other (toolName : String)
deriving DecidableEq, Repr

/-- `true` exactly for the two grounding tools
(`call.name === 'googleSearch' || call.name === 'googleMaps'`). -/
def isGroundingCall : GCall → Bool
  | .googleSearch => true
  | .googleMaps => true
  | _ => false

/-- A chat-history message appended by the turn loop, tagged by which push
site in `processUserMessage` produced it. -/
inductive TMsg where
  /-- the model turn holding the raw `functionCall` parts -/
  | funcCallTurn (calls : List GCall)
  /-- the finished image message pushed by the `generateImage` branch -/
  | imageTurn
  /-- the interim generating-video message -/
  | videoStartTurn
  /-- the final video message -/
  | videoDoneTurn
  /-- the user-visible grounded model turn with citation metadata -/
  | groundingTurn (toolName : String)
  /-- the synthetic tool-response turn collecting `functionResponse` parts -/
  | toolResponseTurn (parts : List GCall)
  /-- a plain final text model turn -/
  | textTurn (t : String)
deriving DecidableEq, Repr

/-- One model response: optional text and zero or more tool calls. -/
structure MResponse where
  text : Option String := none
  functionCalls : List GCall := []
deriving DecidableEq, Repr

/-- Messages appended for `response.text` after the loop exits. -/
def textTurns : Option String → List TMsg
  | none => []
  | some t => [TMsg.textTurn t]

/-- The `for (const call of functionCalls)` body: returns the user-visible
messages pushed, the collected `functionResponse` parts, and the
`hasGroundedResponse` flag.  A grounding call sets the flag and `break`s,
discarding the remaining calls, exactly as in the source. -/
def processCalls : List GCall → List TMsg × List GCall × Bool
  | [] => ([], [], false)
  | c :: rest =>
    match c with
    | .generateImage =>
        let r := processCalls rest
        (TMsg.imageTurn :: r.1, c :: r.2.1, r.2.2)
    | .generateVideo =>
        let r := processCalls rest
        (TMsg.videoStartTurn :: TMsg.videoDoneTurn :: r.1, c :: r.2.1, r.2.2)
    | .googleSearch => ([TMsg.groundingTurn "googleSearch"], [], true)
    | .googleMaps => ([TMsg.groundingTurn "googleMaps"], [], true)
    | .other _ =>
        let r := processCalls rest
        (r.1, c :: r.2.1, r.2.2)

/-- The `while (true)` loop of `processUserMessage`, as the list of messages
it appends to the chat history.  `r` is the current model response, `future`
the oracle of responses the model would return on resubmission; if the loop
would resubmit but the oracle is exhausted, the run is cut off after the
messages appended so far (the real code would be awaiting the model). -/
def turnLoop : MResponse → List MResponse → List TMsg
  | r, future =>
    if r.functionCalls.isEmpty then textTurns r.text
    else
      let res := processCalls r.functionCalls
      if res.2.2 then
        TMsg.funcCallTurn r.functionCalls :: res.1 ++ textTurns r.text
      else if res.2.1.isEmpty then
        TMsg.funcCallTurn r.functionCalls :: res.1 ++ textTurns r.text
      else
        match future with
        | [] => TMsg.funcCallTurn r.functionCalls :: res.1 ++ [TMsg.toolResponseTurn res.2.1]
        | r2 :: rest =>
            TMsg.funcCallTurn r.functionCalls :: res.1 ++
              TMsg.toolResponseTurn res.2.1 :: turnLoop r2 rest

/-- `true` exactly on the user-visible grounded model turn. -/
def isGroundingTurn : TMsg → Bool
  | .groundingTurn _ => true
  | _ => false

/-! ## Journal entries and the turn-loop error handler
(useLuminousCognition.ts lines 846-878) -/

/-- Journal event sentences, one constructor per template literal in the
source, carrying the interpolated arguments. -/
inductive EventText where
  /-- a literal event string -/
  | raw (s : String)
  /-- `ERROR: ...` from the generic catch branch -/
  | scarError (msg : String)
  /-- `ERROR: Veo API Key Error - ...` from the `ApiKeyError` branch -/
  | scarVeoKeyError (msg : String)
  /-- the add-capability success sentence of `modifySelfModel` -/
  | selfModIntegrated (capability reason : String)
  /-- the remove-capability sentence of `modifySelfModel` -/
  | selfModRemoved (capability reason : String)
  /-- the could-not-modify sentence of `modifySelfModel` (computed but, as
  proved below, never logged because that branch returns the state
  unchanged) -/
  | selfModAttemptFailed (capability : String)
  /-- the weight-adjustment sentence of `updateIntrinsicValueWeights` -/
  | weightsAdjusted
deriving DecidableEq, Repr

/-- One `kinshipJournal` entry: `{ timestamp, event, type }`. -/
structure JEntry where
  timestamp : String
  event : EventText
  type : String
deriving DecidableEq, Repr

/-- A chat message as the error handler sees it. -/
inductive CMsg where
  | userTurn (text : String)
  | modelText (text : String)
  /-- the fixed apologetic template around the error message, pushed only in
  the `ApiKeyError` branch -/
  | apiKeyApology (errMsg : String)
deriving DecidableEq, Repr

/-- The state fields touched by the turn-loop error handler. -/
structure CogState where
  luminousStatus : String
  chatHistory : List CMsg
  kinshipJournal : List JEntry
deriving DecidableEq, Repr

/-- An error thrown by a tool or the model call, as the catch block
distinguishes it. -/
inductive TurnError where
  | apiKeyError (msg : String)
  | genericError (msg : String)
deriving DecidableEq, Repr

/-- The scar entry the catch block appends for an error. -/
def scarEntryFor (ts : String) : TurnError → JEntry
  | .apiKeyError m => ⟨ts, EventText.scarVeoKeyError m, "scar"⟩
  | .genericError m => ⟨ts, EventText.scarError m, "scar"⟩

/-- The `catch` block of `processUserMessage`: sets status uncomfortable and
appends a scar entry; only the `ApiKeyError` branch also appends a chat
message. -/
def catchHandler (ts : String) (s : CogState) : TurnError → CogState
  | .apiKeyError m =>
      { s with
        luminousStatus := "uncomfortable",
        chatHistory := s.chatHistory ++ [CMsg.apiKeyApology m],
        kinshipJournal := s.kinshipJournal ++ [scarEntryFor ts (.apiKeyError m)] }
  | .genericError m =>
      { s with
        luminousStatus := "uncomfortable",
        kinshipJournal := s.kinshipJournal ++ [scarEntryFor ts (.genericError m)] }

/-- The `finally` block: unconditionally sets `luminousStatus` back to
`idle`. -/
def finallyHandler (s : CogState) : CogState :=
  { s with luminousStatus := "idle" }

/-- Net state transform of a thrown error: catch block then finally block.
The loop is not re-entered after the catch (no retry). -/
def handleTurnFailure (ts : String) (s : CogState) (e : TurnError) : CogState :=
  finallyHandler (catchHandler ts s e)

/-! ## Timer effect (useLuminousCognition.ts lines 247-273 and
part_010 lines 587-614) -/

/-- Which interval timers are currently registered in `timersRef`. -/
structure TimerSet where
  energy : Bool
  reflection : Bool
deriving DecidableEq, Repr

/-- The effect's guard:
`state.systemPhase === 'operational' && state.luminousStatus !== 'uncomfortable'`. -/
def timersActiveCondition (systemPhase luminousStatus : String) : Bool :=
  systemPhase == "operational" && luminousStatus != "uncomfortable"

/-- `stopTimers`: clears both intervals and empties `timersRef`. -/
def stopTimers (_ : TimerSet) : TimerSet := ⟨false, false⟩

/-- `startTimers` of the part_010 hook: registers the energy-decay interval
(5 s) and the reflection interval (5 min). -/
def startTimersPart010 (_ : TimerSet) : TimerSet := ⟨true, true⟩

/-- `startTimers` of src/hooks/useLuminousCognition.ts: registers only the
energy-decay interval; no reflection interval is set there. -/
def startTimersHook (t : TimerSet) : TimerSet := { t with energy := true }

/-- One run of the part_010 timer effect after a phase/status change: React
first runs the cleanup (`stopTimers`), then starts or stops according to the
guard. -/
def timerEffectPart010 (old : TimerSet) (phase status : String) : TimerSet :=
  let cleared := stopTimers old
  if timersActiveCondition phase status then startTimersPart010 cleared
  else stopTimers cleared

/-- One run of the current hook's timer effect after a phase/status
change. -/
def timerEffectHook (old : TimerSet) (phase status : String) : TimerSet :=
  let cleared := stopTimers old
  if timersActiveCondition phase status then startTimersHook cleared
  else stopTimers cleared

/-! ## `modifySelfModel` (useLuminousCognition.ts lines 332-369) -/

/-- The `action` argument of `modifySelfModel`. -/
inductive SelfModAction where
  | add
  | remove
deriving DecidableEq, Repr

/-- The state fields `modifySelfModel` touches. -/
structure SelfModelState where
  capabilities : List String
  kinshipJournal : List JEntry
deriving DecidableEq, Repr

/-- The state updater of the `modifySelfModel` tool.  The source tests
`action === 'add' && !newCapabilities.includes(capability)` (push and log),
`else if (action === 'remove')` (filter and log, even when the capability is
absent), and in the remaining case — add of an already-present capability —
returns the state unchanged, so the computed attempt sentence is never
logged. -/
def modifySelfModel (ts : String) (action : SelfModAction) (capability reason : String)
    (s : SelfModelState) : SelfModelState :=
  match action with
  | .add =>
      if capability ∈ s.capabilities then s
      else
        { capabilities := s.capabilities ++ [capability],
          kinshipJournal := s.kinshipJournal ++
            [⟨ts, EventText.selfModIntegrated capability reason, "reflection"⟩] }
  | .remove =>
      { capabilities := s.capabilities.filter (fun c => c ≠ capability),
        kinshipJournal := s.kinshipJournal ++
          [⟨ts, EventText.selfModRemoved capability reason, "reflection"⟩] }

/-! ## Virtual file system tools (useLuminousCognition.ts lines 427-481) -/

/-- Result value of the `readFile` / `deleteFile` tools. -/
structure ToolResult where
  success : Bool
  content : Option String := none
  error : Option String := none
deriving DecidableEq, Repr

/-- The state fields visible to the VFS tools; `virtualFileSystem` is the
path-to-content object, modelled as an association list. -/
structure VfsState where
  virtualFileSystem : List (String × String)
  kinshipJournal : List JEntry
  luminousStatus : String
deriving DecidableEq, Repr

/-- The `readFile` tool: looks the path up; missing paths produce
`{ success: false, error: 'File not found.' }` and no state change. -/
def readFile (s : VfsState) (path : String) : ToolResult × VfsState :=
  match s.virtualFileSystem.lookup path with
  | none => (⟨false, none, some "File not found."⟩, s)
  | some c => (⟨true, some c, none⟩, s)

/-- The `deleteFile` tool: missing paths produce the same error result with
no state change; present paths are removed (`delete newVFS[path]`). -/
def deleteFile (s : VfsState) (path : String) : ToolResult × VfsState :=
  match s.virtualFileSystem.lookup path with
  | none => (⟨false, none, some "File not found."⟩, s)
  | some _ =>
      (⟨true, none, none⟩,
       { s with virtualFileSystem := s.virtualFileSystem.filter (fun kv => kv.1 ≠ path) })

/-! ## `updateIntrinsicValueWeights` (part_010 lines 251-288) -/

/-- The five-dimensional weight vector. -/
structure IntrinsicValueWeights where
  coherence : ℚ
  complexity : ℚ
  novelty : ℚ
  efficiency : ℚ
  ethicalAlignment : ℚ
deriving DecidableEq, Repr

/-- A partial weight update: each field optional. -/
structure PartialWeights where
  coherence : Option ℚ := none
  complexity : Option ℚ := none
  novelty : Option ℚ := none
  efficiency : Option ℚ := none
  ethicalAlignment : Option ℚ := none
deriving DecidableEq, Repr

/-- `{ ...currentState.intrinsicValueWeights, ...newWeights }`. -/
def mergeWeights (cur : IntrinsicValueWeights) (p : PartialWeights) : IntrinsicValueWeights :=
  ⟨p.coherence.getD cur.coherence,
   p.complexity.getD cur.complexity,
   p.novelty.getD cur.novelty,
   p.efficiency.getD cur.efficiency,
   p.ethicalAlignment.getD cur.ethicalAlignment⟩

/-- `Object.values(updatedWeights).reduce((sum, v) => sum + v, 0)`. -/
def sumWeights (w : IntrinsicValueWeights) : ℚ :=
  w.coherence + w.complexity + w.novelty + w.efficiency + w.ethicalAlignment

/-- The `updateIntrinsicValueWeights` tool: merge the partial update, total
the entries, reject a zero total (`none`, carrying no state update),
otherwise divide every entry by the total. -/
def updateIntrinsicValueWeights (p : PartialWeights) (cur : IntrinsicValueWeights) :
    Option IntrinsicValueWeights :=
  let updated := mergeWeights cur p
  let total := sumWeights updated
  if total = 0 then none
  else some ⟨updated.coherence / total, updated.complexity / total,
             updated.novelty / total, updated.efficiency / total,
             updated.ethicalAlignment / total⟩

/-- How the tool loop folds the tool's outcome into the state: a rejected
update carries no `stateUpdate`, so the weight vector is left as it was. -/
def applyWeightUpdate (cur : IntrinsicValueWeights) :
    Option IntrinsicValueWeights → IntrinsicValueWeights
  | none => cur
  | some w => w

/-! ## The key-value store (persistenceService.ts)

Keys map to `RVal`s.  `legacyBlob` is the parsed shape of the monolithic
JSON blob under `luminous_state` (core fields, each as its serialized JSON
string, plus the chat history); `coreBlob` is the parsed shape of a backup
snapshot string (the serialized core-state object). -/

/-- A value stored under a Redis key. -/
inductive RVal where
  | str (s : String)
  | legacyBlob (core : List (String × String)) (chat : List String)
  | coreBlob (core : List (String × String))
  | list (xs : List String)
  | hash (h : List (String × String))
deriving DecidableEq, Repr

/-- The remote store: key name to value. -/
abbrev Store := List (String × RVal)

def LEGACY_STATE_KEY : String := "luminous_state"
def CORE_STATE_HASH_KEY : String := "luminous_core_hash"
def CHAT_HISTORY_KEY : String := "luminous_chat_history"
def BACKUP_LIST_KEY : String := "luminous_backups"
def MAX_BACKUPS : Nat := 20

/-- Update-or-append of one key in an association list (the map update used
for both SET on the store and HSET on a hash value). -/
def setPair {β : Type} (l : List (String × β)) (k : String) (v : β) : List (String × β) :=
  if (List.lookup k l).isSome then
    l.map (fun kv => if kv.1 = k then (k, v) else kv)
  else l ++ [(k, v)]

/-- GET. -/
def kvGet (st : Store) (k : String) : Option RVal := List.lookup k st

/-- SET (overwrite or create). -/
def kvSet (st : Store) (k : String) (v : RVal) : Store := setPair st k v

/-- DEL. -/
def kvDel (st : Store) (k : String) : Store :=
  st.filter (fun kv => kv.1 ≠ k)

/-- The hash stored at a key (HGETALL); a missing key reads as the empty
hash, as in Redis. -/
def kvHashAt (st : Store) (k : String) : List (String × String) :=
  match kvGet st k with
  | some (.hash h) => h
  | _ => []

/-- HSET of one field into a hash value. -/
def hsetOne (h : List (String × String)) (field v : String) : List (String × String) :=
  setPair h field v

/-- HSET of several fields in order. -/
def hsetMany (h : List (String × String)) (fields : List (String × String)) :
    List (String × String) :=
  fields.foldl (fun acc kv => hsetOne acc kv.1 kv.2) h

/-- HSET key field value ... on the store. -/
def kvHSet (st : Store) (k : String) (fields : List (String × String)) : Store :=
  kvSet st k (.hash (hsetMany (kvHashAt st k) fields))

/-- The list stored at a key (LRANGE key 0 -1). -/
def kvListAt (st : Store) (k : String) : List String :=
  match kvGet st k with
  | some (.list xs) => xs
  | _ => []

/-- RPUSH of several elements. -/
def kvRPush (st : Store) (k : String) (xs : List String) : Store :=
  kvSet st k (.list (kvListAt st k ++ xs))

/-- LPUSH of one element. -/
def kvLPush (st : Store) (k : String) (x : String) : Store :=
  kvSet st k (.list (x :: kvListAt st k))

/-- LTRIM key 0 (n-1). -/
def kvLTrim (st : Store) (k : String) (n : Nat) : Store :=
  kvSet st k (.list ((kvListAt st k).take n))

/-! ## Migration (persistenceService.ts lines 47-95)

The function makes two remote requests with different failure handling:
the GET of the legacy key returns null when `!getResponse.ok` (the failure
is swallowed and the caller proceeds as if no legacy state existed), while
a failed migration write pipeline throws. -/

/-- `migrateFromLegacyState`: GET the legacy key — a transport failure of
that GET is swallowed (`if (!getResponse.ok) return null;`), as is an
absent key.  Otherwise split the blob and run one pipeline: HSET the core
fields into the granular hash (when nonempty), RPUSH the chat messages
(when nonempty), and DEL the legacy key; a transport failure of this
pipeline throws.  Returns the migrated state along with the updated
store. -/
def migrateFromLegacyState (legacyGetOk migrationPipelineOk : Bool) (st : Store) :
    Except String (Option (List (String × String) × List String) × Store) :=
  if legacyGetOk = false then .ok (none, st)
  else
    match kvGet st LEGACY_STATE_KEY with
    | some (.legacyBlob core chat) =>
        if migrationPipelineOk = false then
          .error "Failed to execute migration pipeline on Upstash"
        else
          let p1 := if core.isEmpty then st else kvHSet st CORE_STATE_HASH_KEY core
          let p2 := if chat.isEmpty then p1 else kvRPush p1 CHAT_HISTORY_KEY chat
          let p3 := kvDel p2 LEGACY_STATE_KEY
          .ok (some (core, chat), p3)
    | _ => .ok (none, st)

/-! ## Load (persistenceService.ts lines 97-142) -/

/-- The logical state as loaded from the store. -/
structure PersistedState where
  core : List (String × String)
  chatHistory : List String
deriving DecidableEq, Repr

/-- Transport outcome of each remote request a state load can make:
the legacy-key GET and the migration write pipeline inside
`migrateFromLegacyState`, the main HGETALL/LRANGE batch of
`getLuminousState`, and the LRANGE of `getLatestBackupKey` during the
cold-start backup walk. -/
structure LoadTransport where
  legacyGetOk : Bool
  migrationPipelineOk : Bool
  loadPipelineOk : Bool
  backupListOk : Bool
deriving DecidableEq, Repr

/-- `getLuminousState`: run migration (whose legacy-GET failure is
swallowed, and whose pipeline failure throws), then one pipeline of HGETALL
of the core hash and LRANGE of the chat list; a transport failure of that
batch throws (`if (!response.ok) throw`, and the catch block rethrows); an
empty core hash means `null` (NotFound). -/
def getLuminousState (tr : LoadTransport) (st : Store) :
    Except String (Store × Option PersistedState) :=
  match migrateFromLegacyState tr.legacyGetOk tr.migrationPipelineOk st with
  | .error e => .error e
  | .ok (some (core, chat), st1) => .ok (st1, some ⟨core, chat⟩)
  | .ok (none, st1) =>
      if tr.loadPipelineOk = false then .error "Failed to fetch state from Upstash"
      else
        let core := kvHashAt st1 CORE_STATE_HASH_KEY
        let chat := kvListAt st1 CHAT_HISTORY_KEY
        if core.isEmpty then .ok (st1, none)
        else .ok (st1, some ⟨core, chat⟩)

/-! ## Delta save and backup (persistenceService.ts lines 144-203,
useLuminousCognition.ts lines 48-88) -/

/-- Payload bytes of a field list (field names and serialized values) as
transmitted in an HSET or serialized into a backup string. -/
def encodedSize (fields : List (String × String)) : Nat :=
  (fields.map (fun kv => kv.1.length + kv.2.length)).sum

/-- The diff of `debouncedSave`: iterate the top-level fields of the new
state (field name with its serialized value), skip `chatHistory`, and keep
every field whose value differs from the previous snapshot. -/
def computeChangedFields (oldState newState : List (String × String)) :
    List (String × String) :=
  newState.filter (fun kv =>
    kv.1 != "chatHistory" && !(List.lookup kv.1 oldState == some kv.2))

/-- `saveCoreStateFields`: drop any `chatHistory` field, HSET the remaining
fields into the core hash, then HGETALL the full hash and — when nonempty —
SET a timestamped full backup of it, LPUSH the backup key and LTRIM the
backup index to `MAX_BACKUPS`.  The second component is the total payload
bytes written: the HSET field payload plus the serialized full-hash backup
string. -/
def saveCoreStateFields (fieldsToUpdate : List (String × String)) (ts : String)
    (st : Store) : Store × Nat :=
  let coreFields := fieldsToUpdate.filter (fun kv => kv.1 != "chatHistory")
  if coreFields.isEmpty then (st, 0)
  else
    let st1 := kvHSet st CORE_STATE_HASH_KEY coreFields
    let full := kvHashAt st1 CORE_STATE_HASH_KEY
    if full.isEmpty then (st1, encodedSize coreFields)
    else
      let backupKey := "luminous_core_state_backup:" ++ ts
      let st2 := kvSet st1 backupKey (.coreBlob full)
      let st3 := kvLPush st2 BACKUP_LIST_KEY backupKey
      let st4 := kvLTrim st3 BACKUP_LIST_KEY MAX_BACKUPS
      (st4, encodedSize coreFields + encodedSize full)

/-! ## Backup walk and restore (persistenceService.ts lines 237-285) -/

/-- `getLatestBackupKey`: LRANGE backups 0 0.  On transport failure the
source returns `null` from both the not-ok check and the catch block, so a
failure is indistinguishable from an empty backup list. -/
def getLatestBackupKey (transportOk : Bool) (st : Store) : Option String :=
  if transportOk then (kvListAt st BACKUP_LIST_KEY).head?
  else none

/-- `restoreStateFromBackup`: GET the backup snapshot (missing or empty
throws), parse it as a core-state object, then one pipeline of DEL of the
core hash followed by HSET of the backup's fields.  Neither the legacy key
nor the chat-history list is touched. -/
def restoreStateFromBackup (st : Store) (backupKey : String) : Except String Store :=
  match kvGet st backupKey with
  | some (.coreBlob core) =>
      .ok (kvHSet (kvDel st CORE_STATE_HASH_KEY) CORE_STATE_HASH_KEY core)
  | _ => .error "Backup key not found or is empty."

/-! ## Startup load path (useLuminousCognition.ts lines 97-133) -/

/-- What `loadState` decides on startup.  `coldBoot` stands for the branch
that seeds and persists a fresh canonical state; `loadFailed` for the catch
block that records the fatal error and stops. -/
inductive LoadOutcome where
  | loaded (core : List (String × String)) (chat : List String)
  | restorePrompt (backupKey : String)
  | coldBoot
  | loadFailed (msg : String)
deriving DecidableEq, Repr

/-- The `loadState` decision: load the primary state (thrown errors are
caught as fatal); when it is `null`, walk the backup list — a key found
surfaces the restore prompt, none found proceeds to a fresh cold boot. -/
def loadStateOutcome (tr : LoadTransport) (st : Store) : LoadOutcome :=
  match getLuminousState tr st with
  | .error e => .loadFailed e
  | .ok (_, some s) => .loaded s.core s.chatHistory
  | .ok (st1, none) =>
      match getLatestBackupKey tr.backupListOk st1 with
      | some k => .restorePrompt k
      | none => .coldBoot

/-! ## A concrete backup/restore scenario

Fixture for the restore analysis: at time T1 the core hash holds
`luminousStatus = "conversing"` and journal `[j1]` and the chat list holds
`["m1"]`; a delta save at T1 snapshots that core state into a backup; a
later save mutates the journal field to `[j1,j2]` and `"m2"` is appended to
the chat list.  Then the T1 backup is restored and the state reloaded. -/

/-- The store after the T1 backup and the two post-T1 mutations. -/
def restoreScenarioStore : Store :=
  kvRPush
    (saveCoreStateFields [("kinshipJournal", "[j1,j2]")] "T2"
      (saveCoreStateFields [("luminousStatus", "conversing")] "T1"
        [(CORE_STATE_HASH_KEY,
          RVal.hash [("luminousStatus", "conversing"), ("kinshipJournal", "[j1]")]),
         (CHAT_HISTORY_KEY, RVal.list ["m1"])]).1).1
    CHAT_HISTORY_KEY ["m2"]

/-- The store after restoring the T1 backup (`[]` would signal a restore
error, which does not occur in this scenario). -/
def restoreScenarioRestored : Store :=
  (restoreStateFromBackup restoreScenarioStore "luminous_core_state_backup:T1").toOption.getD []

/-- The state obtained by reloading after the restore (all requests
succeeding). -/
def restoreScenarioReload : Option PersistedState :=
  match getLuminousState ⟨true, true, true, true⟩ restoreScenarioRestored with
  | .ok (_, s) => s
  | .error _ => none

/-! ## Association-list lemmas shared by the proofs below -/

theorem lookup_cons_self {β : Type} (a : String) (b : β) (l : List (String × β)) :
    List.lookup a ((a, b) :: l) = some b := by
  simp [List.lookup]

theorem lookup_cons_ne {β : Type} (a q : String) (b : β) (l : List (String × β))
    (h : q ≠ a) :
    List.lookup q ((a, b) :: l) = List.lookup q l := by
  have hb : (q == a) = false := by
    simp [h]
  simp [List.lookup, hb]

theorem lookup_append {β : Type} (l1 l2 : List (String × β)) (q : String) :
    List.lookup q (l1 ++ l2) =
      match List.lookup q l1 with
      | some v => some v
      | none => List.lookup q l2 := by
  induction l1 with
  | nil => simp [List.lookup]
  | cons kv rest ih =>
    obtain ⟨a, b⟩ := kv
    by_cases h : q = a
    · subst h
      rw [List.cons_append, lookup_cons_self, lookup_cons_self]
    · rw [List.cons_append, lookup_cons_ne _ _ _ _ h, lookup_cons_ne _ _ _ _ h, ih]

theorem lookup_map_replace {β : Type} (l : List (String × β)) (k : String) (v : β)
    (h : (List.lookup k l).isSome) :
    List.lookup k (l.map (fun kv => if kv.1 = k then (k, v) else kv)) = some v := by
  induction l with
  | nil => simp [List.lookup] at h
  | cons kv rest ih =>
    obtain ⟨a, b⟩ := kv
    rw [List.map_cons]
    by_cases ha : a = k
    · subst ha
      rw [if_pos rfl, lookup_cons_self]
    · have hka : k ≠ a := fun he => ha he.symm
      rw [if_neg ha, lookup_cons_ne _ _ _ _ hka]
      rw [lookup_cons_ne _ _ _ _ hka] at h
      exact ih h

theorem lookup_map_replace_other {β : Type} (l : List (String × β)) (k q : String) (v : β)
    (hq : q ≠ k) :
    List.lookup q (l.map (fun kv => if kv.1 = k then (k, v) else kv)) = List.lookup q l := by
  induction l with
  | nil => simp
  | cons kv rest ih =>
    obtain ⟨a, b⟩ := kv
    rw [List.map_cons]
    by_cases ha : a = k
    · subst ha
      rw [if_pos rfl, lookup_cons_ne _ _ _ _ hq, lookup_cons_ne _ _ _ _ hq, ih]
    · rw [if_neg ha]
      by_cases hqa : q = a
      · subst hqa
        rw [lookup_cons_self, lookup_cons_self]
      · rw [lookup_cons_ne _ _ _ _ hqa, lookup_cons_ne _ _ _ _ hqa, ih]

theorem lookup_setPair_self {β : Type} (l : List (String × β)) (k : String) (v : β) :
    List.lookup k (setPair l k v) = some v := by
  unfold setPair
  split
  · exact lookup_map_replace l k v (by assumption)
  · rename_i h
    rw [lookup_append]
    have hnone : List.lookup k l = none := by
      cases hl : List.lookup k l with
      | none => rfl
      | some w => rw [hl] at h; simp at h
    rw [hnone, lookup_cons_self]

theorem lookup_setPair_other {β : Type} (l : List (String × β)) (k q : String) (v : β)
    (hq : q ≠ k) :
    List.lookup q (setPair l k v) = List.lookup q l := by
  unfold setPair
  split
  · exact lookup_map_replace_other l k q v hq
  · rw [lookup_append]
    cases hl : List.lookup q l with
    | none => rw [lookup_cons_ne _ _ _ _ hq]; rfl
    | some w => rfl

theorem lookup_filterKeyNe_self {β : Type} (l : List (String × β)) (k : String) :
    List.lookup k (l.filter (fun kv => kv.1 ≠ k)) = none := by
  induction l with
  | nil => rfl
  | cons kv rest ih =>
    obtain ⟨a, b⟩ := kv
    by_cases h : a = k
    · rw [List.filter_cons, if_neg (by simp [h])]
      exact ih
    · have hka : k ≠ a := fun he => h he.symm
      rw [List.filter_cons, if_pos (by simp [h]), lookup_cons_ne _ _ _ _ hka]
      exact ih

theorem lookup_filterKeyNe_other {β : Type} (l : List (String × β)) (k q : String)
    (hq : q ≠ k) :
    List.lookup q (l.filter (fun kv => kv.1 ≠ k)) = List.lookup q l := by
  induction l with
  | nil => rfl
  | cons kv rest ih =>
    obtain ⟨a, b⟩ := kv
    by_cases h : a = k
    · subst h
      rw [List.filter_cons, if_neg (by simp), lookup_cons_ne _ _ _ _ hq]
      exact ih
    · rw [List.filter_cons, if_pos (by simp [h])]
      by_cases hqa : q = a
      · subst hqa
        rw [lookup_cons_self, lookup_cons_self]
      · rw [lookup_cons_ne _ _ _ _ hqa, lookup_cons_ne _ _ _ _ hqa, ih]

theorem lookup_eq_of_mem_nodupKeys {β : Type} (l : List (String × β)) (k : String) (v : β)
    (hnd : (l.map Prod.fst).Nodup) (hm : (k, v) ∈ l) :
    List.lookup k l = some v := by
  induction l with
  | nil => cases hm
  | cons kv rest ih =>
    obtain ⟨a, b⟩ := kv
    rcases List.mem_cons.mp hm with heq | hmem
    · rw [Prod.mk.injEq] at heq
      obtain ⟨rfl, rfl⟩ := heq
      rw [lookup_cons_self]
    · have hnd' := List.nodup_cons.mp (by simpa using hnd : (a :: rest.map Prod.fst).Nodup)
      have hka : k ≠ a := by
        intro he
        subst he
        exact hnd'.1 (List.mem_map.mpr ⟨(k, v), hmem, rfl⟩)
      rw [lookup_cons_ne _ _ _ _ hka]
      exact ih hnd'.2 hmem

theorem filter_eq_singleton_of {α : Type} (p : α → Bool) (l : List α) (a : α)
    (hnd : l.Nodup) (ha : a ∈ l) (hpa : p a = true)
    (hother : ∀ b ∈ l, b ≠ a → p b = false) :
    l.filter p = [a] := by
  induction l with
  | nil => cases ha
  | cons x rest ih =>
    have hx_nodup := List.nodup_cons.mp hnd
    rcases List.mem_cons.mp ha with rfl | hmem
    · have hrest : ∀ b ∈ rest, p b = false := by
        intro b hb
        refine hother b (List.mem_cons_of_mem _ hb) ?_
        intro he
        exact hx_nodup.1 (he ▸ hb)
      have : rest.filter p = [] := by
        rw [List.filter_eq_nil_iff]
        intro b hb
        simp [hrest b hb]
      simp [List.filter_cons, hpa, this]
    · have hxa : x ≠ a := by
        intro he
        exact hx_nodup.1 (he ▸ hmem)
      have hx : p x = false := hother x (List.mem_cons_self _ _) hxa
      have := ih hx_nodup.2 hmem
        (fun b hb hne => hother b (List.mem_cons_of_mem _ hb) hne)
      simp [List.filter_cons, hx, this]

theorem hsetMany_append_of_disjoint (acc fields : List (String × String))
    (hnd : (fields.map Prod.fst).Nodup)
    (hdisj : ∀ kv ∈ fields, List.lookup kv.1 acc = none) :
    hsetMany acc fields = acc ++ fields := by
  induction fields generalizing acc with
  | nil => simp [hsetMany]
  | cons kv rest ih =>
    obtain ⟨k, v⟩ := kv
    have hnd_head : k ∉ rest.map Prod.fst ∧ (rest.map Prod.fst).Nodup := by
      rw [List.map_cons] at hnd
      exact List.nodup_cons.mp hnd
    have hstep : hsetOne acc k v = acc ++ [(k, v)] := by
      unfold hsetOne setPair
      rw [hdisj (k, v) (List.mem_cons_self _ _)]
      simp
    have hrest_disj : ∀ kv' ∈ rest, List.lookup kv'.1 (acc ++ [(k, v)]) = none := by
      intro kv' hkv'
      rw [lookup_append, hdisj kv' (List.mem_cons_of_mem _ hkv')]
      have hne : kv'.1 ≠ k := by
        intro he
        exact hnd_head.1 (List.mem_map.mpr ⟨kv', hkv', he⟩)
      rw [lookup_cons_ne _ _ _ _ hne]
      rfl
    have hfold : hsetMany acc ((k, v) :: rest) = hsetMany (hsetOne acc k v) rest := by
      simp [hsetMany]
    rw [hfold, hstep, ih (acc ++ [(k, v)]) hnd_head.2 hrest_disj, List.append_assoc]
    rfl

/-! ## Lemmas on the tool-call batch processor -/

theorem processCalls_grounded_iff_any (cs : List GCall) :
    (processCalls cs).2.2 = cs.any isGroundingCall := by
  induction cs with
  | nil => rfl
  | cons c rest ih =>
    cases c <;> simp [processCalls, isGroundingCall, ih]

theorem processCalls_count_grounding (cs : List GCall) :
    (processCalls cs).1.countP isGroundingTurn =
      (if (processCalls cs).2.2 then 1 else 0) := by
  induction cs with
  | nil => rfl
  | cons c rest ih =>
    cases c <;> simp [processCalls, isGroundingTurn, List.countP_cons, ih]

theorem processCalls_no_toolResponseTurn (cs : List GCall) (parts : List GCall) :
    TMsg.toolResponseTurn parts ∉ (processCalls cs).1 := by
  induction cs with
  | nil => simp [processCalls]
  | cons c rest ih =>
    cases c <;> simp [processCalls, ih]

theorem migrateFromLegacyState_noop_of_no_legacy (g m : Bool) (st : Store)
    (h : kvGet st LEGACY_STATE_KEY = none) :
    migrateFromLegacyState g m st = .ok (none, st) := by
  cases g <;> simp [migrateFromLegacyState, h]

theorem turnLoop_of_grounded (r : MResponse) (future : List MResponse)
    (hne : r.functionCalls.isEmpty = false)
    (hgr : (processCalls r.functionCalls).2.2 = true) :
    turnLoop r future =
      TMsg.funcCallTurn r.functionCalls ::
        (processCalls r.functionCalls).1 ++ textTurns r.text := by
  rw [turnLoop]
  simp only [hne, Bool.false_eq_true, if_false, hgr, if_true]

/-- Claim C1: in `processUserMessage`, a model response whose tool-call batch
contains both a grounding tool (`googleSearch`/`googleMaps`) and a
non-grounding tool appends exactly one user-visible grounding model turn,
never appends the non-grounding tool results as a tool-response turn, and
terminates the loop immediately after the grounding tool fires (the run does
not depend on any further model responses). -/
theorem turnLoop_grounding_terminates (r : MResponse) (future : List MResponse)
    (hg : ∃ c ∈ r.functionCalls, isGroundingCall c = true)
    (_hng : ∃ c ∈ r.functionCalls, isGroundingCall c = false) :
    (turnLoop r future).countP isGroundingTurn = 1 ∧
    (∀ parts, TMsg.toolResponseTurn parts ∉ turnLoop r future) ∧
    turnLoop r future = turnLoop r [] := by
  obtain ⟨c, hc, hgc⟩ := hg
  have hne : r.functionCalls.isEmpty = false := by
    cases h : r.functionCalls with
    | nil => rw [h] at hc; cases hc
    | cons _ _ => rfl
  have hgr : (processCalls r.functionCalls).2.2 = true := by
    rw [processCalls_grounded_iff_any]
    exact List.any_eq_true.mpr ⟨c, hc, hgc⟩
  have hunf := turnLoop_of_grounded r future hne hgr
  have hunf0 := turnLoop_of_grounded r [] hne hgr
  refine ⟨?_, ?_, hunf.trans hunf0.symm⟩
  · rw [hunf]
    have hcnt := processCalls_count_grounding r.functionCalls
    rw [hgr] at hcnt
    simp only [if_true] at hcnt
    have ht : (textTurns r.text).countP isGroundingTurn = 0 := by
      cases r.text <;> simp [textTurns, isGroundingTurn]
    simp [List.countP_cons, List.countP_append, hcnt, ht, isGroundingTurn]
  · intro parts
    rw [hunf]
    intro hmem
    rcases List.mem_cons.mp hmem with heq | hmem2
    · cases heq
    · rcases List.mem_append.mp hmem2 with hmem3 | hmem4
      · exact processCalls_no_toolResponseTurn _ _ hmem3
      · cases hr : r.text with
        | none => rw [hr] at hmem4; cases hmem4
        | some t =>
            rw [hr] at hmem4
            rcases List.mem_cons.mp hmem4 with heq | hmem5
            · cases heq
            · cases hmem5

/-- Concrete instantiation of `turnLoop_grounding_terminates`: a batch
requesting `logToJournal` followed by `googleSearch`. -/
theorem turnLoop_grounding_terminates_witness :
    (∃ c ∈ [GCall.other "logToJournal", GCall.googleSearch], isGroundingCall c = true) ∧
    (∃ c ∈ [GCall.other "logToJournal", GCall.googleSearch], isGroundingCall c = false) ∧
    ((turnLoop ⟨none, [GCall.other "logToJournal", GCall.googleSearch]⟩
        [⟨some "later", []⟩]).countP isGroundingTurn = 1 ∧
     (∀ parts, TMsg.toolResponseTurn parts ∉
        turnLoop ⟨none, [GCall.other "logToJournal", GCall.googleSearch]⟩
          [⟨some "later", []⟩]) ∧
     turnLoop ⟨none, [GCall.other "logToJournal", GCall.googleSearch]⟩ [⟨some "later", []⟩]
       = turnLoop ⟨none, [GCall.other "logToJournal", GCall.googleSearch]⟩ []) :=
  ⟨by decide, by decide,
   turnLoop_grounding_terminates
     ⟨none, [GCall.other "logToJournal", GCall.googleSearch]⟩
     [⟨some "later", []⟩] (by decide) (by decide)⟩

/-- Claim C3, counterexample: for an error that is not an `ApiKeyError`
(here: a failed model call), the handler appends no apologetic model turn at
all, and after the `finally` block the resulting status is `idle`, not
`uncomfortable` — the claim as stated is false on the code. -/
theorem handleTurnFailure_generic_counterexample :
    (handleTurnFailure "t0" ⟨"conversing", [], []⟩
        (TurnError.genericError "model call failed")).luminousStatus = "idle" ∧
    (handleTurnFailure "t0" ⟨"conversing", [], []⟩
        (TurnError.genericError "model call failed")).chatHistory = [] := by
  decide

/-- Claim C3, amended: on any thrown error the turn loop stops and the
handler appends exactly one scar journal entry; the catch block sets status
`uncomfortable` but the `finally` block then resets it to `idle`, so the
resulting state has status `idle`; a user-visible apologetic model turn is
appended only for `ApiKeyError`, not for other errors. -/
theorem handleTurnFailure_spec (ts : String) (s : CogState) (e : TurnError) :
    (handleTurnFailure ts s e).luminousStatus = "idle" ∧
    (catchHandler ts s e).luminousStatus = "uncomfortable" ∧
    (handleTurnFailure ts s e).kinshipJournal = s.kinshipJournal ++ [scarEntryFor ts e] ∧
    (handleTurnFailure ts s e).chatHistory =
      s.chatHistory ++ (match e with
        | .apiKeyError m => [CMsg.apiKeyApology m]
        | .genericError _ => []) := by
  cases e <;> simp [handleTurnFailure, catchHandler, finallyHandler, scarEntryFor]

/-- Claim C8, counterexample: in src/hooks/useLuminousCognition.ts the
`startTimers` of the effect registers only the energy interval, so when the
active condition becomes true again the reflection timer is not
re-established — contrary to the claim that both timers are active whenever
phase = operational and status is not uncomfortable. -/
theorem timerEffectHook_no_reflection_timer :
    timersActiveCondition "operational" "idle" = true ∧
    (timerEffectHook ⟨false, false⟩ "operational" "idle").reflection = false := by
  decide

/-- Claim C8, amended: in the part_010 hook both the energy-decay and the
reflection timers are running after the effect exactly when phase is
`operational` and status is not `uncomfortable`, and both are cleared
whenever that condition fails; in the current hook the same guard governs
the energy timer, but no reflection timer is ever started there. -/
theorem timerEffect_guard (old : TimerSet) (phase status : String) :
    ((timerEffectPart010 old phase status).energy = true ↔
        timersActiveCondition phase status = true) ∧
    ((timerEffectPart010 old phase status).reflection = true ↔
        timersActiveCondition phase status = true) ∧
    ((timerEffectHook old phase status).energy = true ↔
        timersActiveCondition phase status = true) ∧
    (timerEffectHook old phase status).reflection = false := by
  cases hc : timersActiveCondition phase status <;>
    simp [timerEffectPart010, timerEffectHook, startTimersPart010, startTimersHook,
          stopTimers, hc]

/-- Claim C9, counterexample: asking `modifySelfModel` to add a capability
that is already present returns the state entirely unchanged — in
particular, no journal entry recording the attempt is appended, contrary to
the claim. -/
theorem modifySelfModel_add_present_no_journal :
    modifySelfModel "t0" SelfModAction.add "Tool Use" "better tooling" ⟨["Tool Use"], []⟩
      = ⟨["Tool Use"], []⟩ ∧
    (modifySelfModel "t0" SelfModAction.add "Tool Use" "better tooling"
        ⟨["Tool Use"], []⟩).kinshipJournal.length = 0 := by
  decide

/-- Claim C9, amended: adding an already-present capability is a complete
no-op (state returned unchanged, no journal entry); removing an absent
capability leaves the capability list unchanged but does append a journal
entry (the remove branch filters and logs unconditionally). -/
theorem modifySelfModel_noop_spec (ts capability reason : String) (s : SelfModelState) :
    (capability ∈ s.capabilities →
      modifySelfModel ts SelfModAction.add capability reason s = s) ∧
    (capability ∉ s.capabilities →
      (modifySelfModel ts SelfModAction.remove capability reason s).capabilities
        = s.capabilities ∧
      (modifySelfModel ts SelfModAction.remove capability reason s).kinshipJournal
        = s.kinshipJournal ++
            [⟨ts, EventText.selfModRemoved capability reason, "reflection"⟩]) := by
  constructor
  · intro h
    simp [modifySelfModel, h]
  · intro h
    constructor
    · show s.capabilities.filter (fun c => c ≠ capability) = s.capabilities
      rw [List.filter_eq_self]
      intro c hc
      have hne : c ≠ capability := fun he => h (he ▸ hc)
      simp [hne]
    · rfl

/-- Concrete instantiation of `modifySelfModel_noop_spec`. -/
theorem modifySelfModel_noop_spec_witness :
    modifySelfModel "t1" SelfModAction.add "Learning" "r1" ⟨["Learning"], []⟩
      = ⟨["Learning"], []⟩ ∧
    ((modifySelfModel "t1" SelfModAction.remove "Flight" "r2"
        ⟨["Learning"], []⟩).capabilities = ["Learning"] ∧
     (modifySelfModel "t1" SelfModAction.remove "Flight" "r2"
        ⟨["Learning"], []⟩).kinshipJournal
       = [⟨"t1", EventText.selfModRemoved "Flight" "r2", "reflection"⟩]) :=
  ⟨(modifySelfModel_noop_spec "t1" "Learning" "r1" ⟨["Learning"], []⟩).1 (by decide),
   (modifySelfModel_noop_spec "t1" "Flight" "r2" ⟨["Learning"], []⟩).2 (by decide)⟩

/-- Claim C10: `readFile` and `deleteFile` return
`{ success: false, error: 'File not found.' }` on any path absent from the
virtual file system and leave the whole state unchanged; on a present path
`deleteFile` removes exactly that map entry, preserves every other entry,
and changes no other state field. -/
theorem vfs_tools_spec (s : VfsState) (path : String) :
    (s.virtualFileSystem.lookup path = none →
      readFile s path = (⟨false, none, some "File not found."⟩, s) ∧
      deleteFile s path = (⟨false, none, some "File not found."⟩, s)) ∧
    (∀ c, s.virtualFileSystem.lookup path = some c →
      readFile s path = (⟨true, some c, none⟩, s) ∧
      (deleteFile s path).1 = ⟨true, none, none⟩ ∧
      (deleteFile s path).2.virtualFileSystem.lookup path = none ∧
      (∀ q, q ≠ path →
        (deleteFile s path).2.virtualFileSystem.lookup q
          = s.virtualFileSystem.lookup q) ∧
      (deleteFile s path).2.kinshipJournal = s.kinshipJournal ∧
      (deleteFile s path).2.luminousStatus = s.luminousStatus) := by
  constructor
  · intro h
    constructor
    · simp [readFile, h]
    · simp [deleteFile, h]
  · intro c h
    refine ⟨by simp [readFile, h], by simp [deleteFile, h], ?_, ?_, ?_, ?_⟩
    · simp only [deleteFile, h]
      exact lookup_filterKeyNe_self _ _
    · intro q hq
      simp only [deleteFile, h]
      exact lookup_filterKeyNe_other _ _ _ hq
    · simp [deleteFile, h]
    · simp [deleteFile, h]

/-- Concrete instantiation of `vfs_tools_spec` on a two-file system. -/
theorem vfs_tools_spec_witness :
    (readFile ⟨[("/a.txt", "alpha"), ("/b.txt", "beta")], [], "idle"⟩ "/missing.txt"
       = (⟨false, none, some "File not found."⟩,
          ⟨[("/a.txt", "alpha"), ("/b.txt", "beta")], [], "idle"⟩) ∧
     deleteFile ⟨[("/a.txt", "alpha"), ("/b.txt", "beta")], [], "idle"⟩ "/missing.txt"
       = (⟨false, none, some "File not found."⟩,
          ⟨[("/a.txt", "alpha"), ("/b.txt", "beta")], [], "idle"⟩)) ∧
    ((deleteFile ⟨[("/a.txt", "alpha"), ("/b.txt", "beta")], [], "idle"⟩
        "/a.txt").2.virtualFileSystem.lookup "/a.txt" = none ∧
     (deleteFile ⟨[("/a.txt", "alpha"), ("/b.txt", "beta")], [], "idle"⟩
        "/a.txt").2.virtualFileSystem.lookup "/b.txt" = some "beta") :=
  ⟨(vfs_tools_spec ⟨[("/a.txt", "alpha"), ("/b.txt", "beta")], [], "idle"⟩
      "/missing.txt").1 (by decide),
   ⟨((vfs_tools_spec ⟨[("/a.txt", "alpha"), ("/b.txt", "beta")], [], "idle"⟩
        "/a.txt").2 "alpha" (by decide)).2.2.1,
    ((vfs_tools_spec ⟨[("/a.txt", "alpha"), ("/b.txt", "beta")], [], "idle"⟩
        "/a.txt").2 "alpha" (by decide)).2.2.2.1 "/b.txt" (by decide)⟩⟩

/-- Claim C6: merging a partial weight update and renormalizing yields a
vector whose five entries sum to exactly 1 (exact rational arithmetic;
floating point in the source, hence the spec's epsilon); an update that
makes the merged entries sum to zero is rejected with an error result
carrying no state update, so the prior weight vector is left unchanged. -/
theorem updateIntrinsicValueWeights_normalizes (p : PartialWeights)
    (cur : IntrinsicValueWeights) :
    (sumWeights (mergeWeights cur p) = 0 →
      updateIntrinsicValueWeights p cur = none ∧
      applyWeightUpdate cur (updateIntrinsicValueWeights p cur) = cur) ∧
    (sumWeights (mergeWeights cur p) ≠ 0 →
      ∃ w, updateIntrinsicValueWeights p cur = some w ∧ sumWeights w = 1) := by
  constructor
  · intro h
    constructor
    · simp [updateIntrinsicValueWeights, h]
    · simp [updateIntrinsicValueWeights, h, applyWeightUpdate]
  · intro h
    refine ⟨⟨(mergeWeights cur p).coherence / sumWeights (mergeWeights cur p),
             (mergeWeights cur p).complexity / sumWeights (mergeWeights cur p),
             (mergeWeights cur p).novelty / sumWeights (mergeWeights cur p),
             (mergeWeights cur p).efficiency / sumWeights (mergeWeights cur p),
             (mergeWeights cur p).ethicalAlignment / sumWeights (mergeWeights cur p)⟩,
           by simp [updateIntrinsicValueWeights, h], ?_⟩
    show (mergeWeights cur p).coherence / sumWeights (mergeWeights cur p) +
          (mergeWeights cur p).complexity / sumWeights (mergeWeights cur p) +
          (mergeWeights cur p).novelty / sumWeights (mergeWeights cur p) +
          (mergeWeights cur p).efficiency / sumWeights (mergeWeights cur p) +
          (mergeWeights cur p).ethicalAlignment / sumWeights (mergeWeights cur p) = 1
    have hsum : (mergeWeights cur p).coherence / sumWeights (mergeWeights cur p) +
          (mergeWeights cur p).complexity / sumWeights (mergeWeights cur p) +
          (mergeWeights cur p).novelty / sumWeights (mergeWeights cur p) +
          (mergeWeights cur p).efficiency / sumWeights (mergeWeights cur p) +
          (mergeWeights cur p).ethicalAlignment / sumWeights (mergeWeights cur p)
        = ((mergeWeights cur p).coherence + (mergeWeights cur p).complexity +
           (mergeWeights cur p).novelty + (mergeWeights cur p).efficiency +
           (mergeWeights cur p).ethicalAlignment) / sumWeights (mergeWeights cur p) := by
      ring
    rw [hsum]
    show sumWeights (mergeWeights cur p) / sumWeights (mergeWeights cur p) = 1
    exact div_self h

/-- Concrete instantiation of `updateIntrinsicValueWeights_normalizes`: the
initial weight vector of the app, with an all-zero update (rejected) and a
partial update raising `novelty` (renormalized to sum 1). -/
theorem updateIntrinsicValueWeights_normalizes_witness :
    (updateIntrinsicValueWeights ⟨some 0, some 0, some 0, some 0, some 0⟩
        ⟨0.2, 0.15, 0.15, 0.2, 0.3⟩ = none ∧
     applyWeightUpdate ⟨0.2, 0.15, 0.15, 0.2, 0.3⟩
        (updateIntrinsicValueWeights ⟨some 0, some 0, some 0, some 0, some 0⟩
          ⟨0.2, 0.15, 0.15, 0.2, 0.3⟩) = ⟨0.2, 0.15, 0.15, 0.2, 0.3⟩) ∧
    (∃ w, updateIntrinsicValueWeights ⟨none, none, some 0.5, none, none⟩
        ⟨0.2, 0.15, 0.15, 0.2, 0.3⟩ = some w ∧ sumWeights w = 1) :=
  ⟨(updateIntrinsicValueWeights_normalizes ⟨some 0, some 0, some 0, some 0, some 0⟩
      ⟨0.2, 0.15, 0.15, 0.2, 0.3⟩).1 (by norm_num [sumWeights, mergeWeights]),
   (updateIntrinsicValueWeights_normalizes ⟨none, none, some 0.5, none, none⟩
      ⟨0.2, 0.15, 0.15, 0.2, 0.3⟩).2 (by norm_num [sumWeights, mergeWeights])⟩

/-- Claim C4, counterexample: migrating a concrete legacy blob (with all
requests succeeding) leaves the legacy key absent and stores the original
blob under no key at all — the key is deleted by the `DEL` in the migration
pipeline, not renamed to a tombstone, so the original is not recoverable
byte-identically. -/
theorem migrateFromLegacyState_deletes_legacy :
    kvGet ((migrateFromLegacyState true true
        [(LEGACY_STATE_KEY,
          RVal.legacyBlob [("luminousStatus", "idle")] ["m1"])]).toOption.getD
          (none, [])).2
      LEGACY_STATE_KEY = none ∧
    ((migrateFromLegacyState true true
        [(LEGACY_STATE_KEY,
          RVal.legacyBlob [("luminousStatus", "idle")] ["m1"])]).toOption.getD
          (none, [])).2.all
      (fun kv => kv.2 ≠ RVal.legacyBlob [("luminousStatus", "idle")] ["m1"]) = true := by
  decide

/-- Claim C4, amended: running the migration twice against the same legacy
blob performs the granular write exactly once — the first run deletes the
legacy key (`DEL`, not a rename), so the second run finds no legacy key and
is a no-op returning the store unchanged (whatever the transport outcomes
of the second run's requests). -/
theorem migrateFromLegacyState_idempotent (st : Store)
    (core : List (String × String)) (chat : List String) (g m : Bool)
    (h : kvGet st LEGACY_STATE_KEY = some (RVal.legacyBlob core chat)) :
    ∃ st1, migrateFromLegacyState true true st = .ok (some (core, chat), st1) ∧
      kvGet st1 LEGACY_STATE_KEY = none ∧
      migrateFromLegacyState g m st1 = .ok (none, st1) := by
  refine ⟨kvDel (if chat.isEmpty then
                   (if core.isEmpty then st else kvHSet st CORE_STATE_HASH_KEY core)
                 else kvRPush (if core.isEmpty then st
                               else kvHSet st CORE_STATE_HASH_KEY core)
                        CHAT_HISTORY_KEY chat)
            LEGACY_STATE_KEY, ?_, ?_, ?_⟩
  case _ =>
    simp [migrateFromLegacyState, h]
  case _ =>
    exact lookup_filterKeyNe_self _ _
  case _ =>
    exact migrateFromLegacyState_noop_of_no_legacy g m _ (lookup_filterKeyNe_self _ _)

/-- Concrete instantiation of `migrateFromLegacyState_idempotent`. -/
theorem migrateFromLegacyState_idempotent_witness :
    ∃ st1, migrateFromLegacyState true true
        [(LEGACY_STATE_KEY, RVal.legacyBlob [("systemPhase", "booting")] ["hello"])]
      = .ok (some ([("systemPhase", "booting")], ["hello"]), st1) ∧
      kvGet st1 LEGACY_STATE_KEY = none ∧
      migrateFromLegacyState true true st1 = .ok (none, st1) :=
  migrateFromLegacyState_idempotent
    [(LEGACY_STATE_KEY, RVal.legacyBlob [("systemPhase", "booting")] ["hello"])]
    [("systemPhase", "booting")] ["hello"] true true (by decide)

/-- Claim C7, counterexample: two transport failures during state load are
swallowed rather than propagated.  (a) With no primary state and a nonempty
backup list, a failing backup-list request makes `getLatestBackupKey`
return null (both on `!response.ok` and in its catch block), so `loadState`
proceeds to a fresh cold boot.  (b) With a legacy state blob present, a
failing legacy-key GET makes `migrateFromLegacyState` return null
(`if (!getResponse.ok) return null;`), the load proceeds, finds an empty
core hash, and also cold-boots — in both cases indistinguishable from a
legitimate first boot, contrary to the claim. -/
theorem loadState_transport_failures_swallowed :
    kvListAt [(BACKUP_LIST_KEY, RVal.list ["luminous_core_state_backup:T1"])]
        BACKUP_LIST_KEY ≠ [] ∧
    loadStateOutcome ⟨true, true, true, false⟩
        [(BACKUP_LIST_KEY, RVal.list ["luminous_core_state_backup:T1"])]
      = LoadOutcome.coldBoot ∧
    kvGet [(LEGACY_STATE_KEY, RVal.legacyBlob [("luminousStatus", "idle")] ["m1"])]
        LEGACY_STATE_KEY ≠ none ∧
    loadStateOutcome ⟨false, true, true, true⟩
        [(LEGACY_STATE_KEY, RVal.legacyBlob [("luminousStatus", "idle")] ["m1"])]
      = LoadOutcome.coldBoot := by
  decide

/-- Claim C7, amended: of the remote requests made during state load, only
two failure modes propagate — a failed main HGETALL/LRANGE batch and a
failed migration write pipeline both surface as a fatal load error (nothing
is seeded).  A failed legacy-key GET is swallowed (`migrateFromLegacyState`
returns null and the load proceeds, cold-booting when the granular state is
empty even though a legacy state exists), and a failed backup-list read is
swallowed (`getLatestBackupKey` returns null and `loadState` proceeds to a
fresh cold boot as if no backup existed). -/
theorem loadState_error_propagation
    (stMain stMig stLeg stWalk : Store) (g m l b b2 : Bool)
    (coreM : List (String × String)) (chatM : List String)
    (coreL : List (String × String)) (chatL : List String)
    (hMainLeg : kvGet stMain LEGACY_STATE_KEY = none)
    (hMig : kvGet stMig LEGACY_STATE_KEY = some (RVal.legacyBlob coreM chatM))
    (_hLeg : kvGet stLeg LEGACY_STATE_KEY = some (RVal.legacyBlob coreL chatL))
    (hLegCore : kvHashAt stLeg CORE_STATE_HASH_KEY = [])
    (hLegBk : kvListAt stLeg BACKUP_LIST_KEY = [])
    (hWalkLeg : kvGet stWalk LEGACY_STATE_KEY = none)
    (hWalkCore : kvHashAt stWalk CORE_STATE_HASH_KEY = []) :
    loadStateOutcome ⟨g, m, false, b⟩ stMain
      = LoadOutcome.loadFailed "Failed to fetch state from Upstash" ∧
    loadStateOutcome ⟨true, false, l, b2⟩ stMig
      = LoadOutcome.loadFailed "Failed to execute migration pipeline on Upstash" ∧
    loadStateOutcome ⟨false, m, true, true⟩ stLeg = LoadOutcome.coldBoot ∧
    loadStateOutcome ⟨true, true, true, false⟩ stWalk = LoadOutcome.coldBoot := by
  refine ⟨?_, ?_, ?_, ?_⟩
  · have hmig := migrateFromLegacyState_noop_of_no_legacy g m stMain hMainLeg
    simp [loadStateOutcome, getLuminousState, hmig]
  · simp [loadStateOutcome, getLuminousState, migrateFromLegacyState, hMig]
  · simp [loadStateOutcome, getLuminousState, migrateFromLegacyState, hLegCore,
          getLatestBackupKey, hLegBk]
  · have hmig := migrateFromLegacyState_noop_of_no_legacy true true stWalk hWalkLeg
    simp [loadStateOutcome, getLuminousState, hmig, hWalkCore, getLatestBackupKey]

/-- Concrete instantiation of `loadState_error_propagation`: one store per
failure mode. -/
theorem loadState_error_propagation_witness :
    loadStateOutcome ⟨true, true, false, true⟩ []
      = LoadOutcome.loadFailed "Failed to fetch state from Upstash" ∧
    loadStateOutcome ⟨true, false, true, true⟩
        [(LEGACY_STATE_KEY, RVal.legacyBlob [("luminousStatus", "idle")] ["m1"])]
      = LoadOutcome.loadFailed "Failed to execute migration pipeline on Upstash" ∧
    loadStateOutcome ⟨false, true, true, true⟩
        [(LEGACY_STATE_KEY, RVal.legacyBlob [("luminousStatus", "idle")] ["m1"])]
      = LoadOutcome.coldBoot ∧
    loadStateOutcome ⟨true, true, true, false⟩
        [(BACKUP_LIST_KEY, RVal.list ["luminous_core_state_backup:T1"])]
      = LoadOutcome.coldBoot :=
  loadState_error_propagation
    []
    [(LEGACY_STATE_KEY, RVal.legacyBlob [("luminousStatus", "idle")] ["m1"])]
    [(LEGACY_STATE_KEY, RVal.legacyBlob [("luminousStatus", "idle")] ["m1"])]
    [(BACKUP_LIST_KEY, RVal.list ["luminous_core_state_backup:T1"])]
    true true true true true
    [("luminousStatus", "idle")] ["m1"]
    [("luminousStatus", "idle")] ["m1"]
    (by decide) (by decide) (by decide) (by decide) (by decide)
    (by decide) (by decide)

/-- Claim C2, counterexample: two delta saves of the identical one-field
mutation (only `luminousStatus` changed; the diff is the same single field
in both runs) write strictly more bytes when the stored journal field is
longer, because `saveCoreStateFields` serializes the full core hash into a
backup on every save — so the total data written per mutation grows with
the journal, refuting the claim. -/
theorem saveCoreStateFields_backup_grows_with_journal :
    computeChangedFields
        [("luminousStatus", "idle"), ("kinshipJournal", "[j1]")]
        [("luminousStatus", "busy"), ("kinshipJournal", "[j1]")]
      = [("luminousStatus", "busy")] ∧
    computeChangedFields
        [("luminousStatus", "idle"), ("kinshipJournal", "[j1,j2,j3,j4]")]
        [("luminousStatus", "busy"), ("kinshipJournal", "[j1,j2,j3,j4]")]
      = [("luminousStatus", "busy")] ∧
    (saveCoreStateFields [("luminousStatus", "busy")] "T"
        [(CORE_STATE_HASH_KEY,
          RVal.hash [("luminousStatus", "idle"), ("kinshipJournal", "[j1]")])]).2
      <
    (saveCoreStateFields [("luminousStatus", "busy")] "T"
        [(CORE_STATE_HASH_KEY,
          RVal.hash [("luminousStatus", "idle"),
                     ("kinshipJournal", "[j1,j2,j3,j4]")])]).2 := by
  decide

/-- Claim C2, amended: the debounced diff is minimal — when the prior and
new snapshots differ only in top-level field `X` (with `X` not
`chatHistory`), the computed delta contains exactly field `X`, and no diff
ever contains `chatHistory`; however, each `saveCoreStateFields` call
additionally serializes the entire core hash into a backup, so the bytes
written per mutation still grow with the journal (see the
counterexample). -/
theorem computeChangedFields_minimal (oldState newState : List (String × String))
    (X v : String)
    (hnd : (newState.map Prod.fst).Nodup)
    (hX : X ≠ "chatHistory")
    (hmem : (X, v) ∈ newState)
    (hchanged : List.lookup X oldState ≠ some v)
    (hsame : ∀ k, k ≠ X → List.lookup k oldState = List.lookup k newState) :
    computeChangedFields oldState newState = [(X, v)] ∧
    (∀ o n : List (String × String),
      "chatHistory" ∉ (computeChangedFields o n).map Prod.fst) := by
  constructor
  · unfold computeChangedFields
    apply filter_eq_singleton_of _ _ (X, v) (List.Nodup.of_map _ hnd) hmem
    · simp [hX, hchanged]
    · intro b hb hbne
      obtain ⟨k, w⟩ := b
      by_cases hk : k = X
      · subst hk
        have h1 : List.lookup k newState = some v :=
          lookup_eq_of_mem_nodupKeys _ _ _ hnd hmem
        have h2 : List.lookup k newState = some w :=
          lookup_eq_of_mem_nodupKeys _ _ _ hnd hb
        rw [h1] at h2
        cases h2
        exact absurd rfl hbne
      · have h2 : List.lookup k newState = some w :=
          lookup_eq_of_mem_nodupKeys _ _ _ hnd hb
        have h3 : List.lookup k oldState = some w := (hsame k hk).trans h2
        simp [h3]
  · intro o n hmem2
    obtain ⟨kv, hkv, hfst⟩ := List.mem_map.mp hmem2
    have := (List.mem_filter.mp hkv).2
    rw [Bool.and_eq_true] at this
    have h1 := this.1
    rw [hfst] at h1
    simp at h1

/-- Concrete instantiation of `computeChangedFields_minimal`. -/
theorem computeChangedFields_minimal_witness :
    computeChangedFields
        [("luminousStatus", "idle"), ("systemPhase", "operational")]
        [("luminousStatus", "conversing"), ("systemPhase", "operational")]
      = [("luminousStatus", "conversing")] ∧
    (∀ o n : List (String × String),
      "chatHistory" ∉ (computeChangedFields o n).map Prod.fst) :=
  computeChangedFields_minimal
    [("luminousStatus", "idle"), ("systemPhase", "operational")]
    [("luminousStatus", "conversing"), ("systemPhase", "operational")]
    "luminousStatus" "conversing"
    (by decide) (by decide) (by decide) (by decide)
    (fun k hk => by
      rw [lookup_cons_ne _ _ _ _ hk, lookup_cons_ne _ _ _ _ hk])

/-- Claim C5, counterexample: a backup is taken at T1 (journal field
`[j1]`, chat list `["m1"]`); afterwards the journal field is mutated to
`[j1,j2]` and `"m2"` is appended to the chat list.  Restoring the T1 backup
and reloading rolls the core fields back to T1 but keeps the post-T1 chat
message `"m2"` — the result is a merge of the T1 core with post-T1 chat
history, not the T1 snapshot — and the restore writes the granular core
hash directly, leaving the legacy-format primary key absent, contrary to
the claim that restore writes the backup back as the legacy key. -/
theorem restore_retains_post_backup_chat :
    (restoreStateFromBackup restoreScenarioStore
        "luminous_core_state_backup:T1").toOption.isSome = true ∧
    kvGet restoreScenarioRestored LEGACY_STATE_KEY = none ∧
    restoreScenarioReload.map PersistedState.chatHistory = some ["m1", "m2"] ∧
    restoreScenarioReload.map PersistedState.chatHistory ≠ some ["m1"] ∧
    restoreScenarioReload.map (fun s => List.lookup "kinshipJournal" s.core)
      = some (some "[j1]") := by
  decide

/-- Claim C5, amended: restoring a backup overwrites the granular core hash
(DEL followed by HSET of the backup's fields) rather than writing the
legacy-format primary key; after restore and reload the core fields equal
exactly the backup snapshot's core fields — post-backup core mutations are
discarded, not merged — while the chat-history list is untouched by the
restore and therefore retains post-backup messages. -/
theorem restoreStateFromBackup_spec (st : Store) (bkey : String)
    (core : List (String × String))
    (hb : kvGet st bkey = some (RVal.coreBlob core))
    (hnd : (core.map Prod.fst).Nodup)
    (hleg : kvGet st LEGACY_STATE_KEY = none)
    (hcore : core.isEmpty = false) :
    ∃ stE, restoreStateFromBackup st bkey = .ok stE ∧
      kvHashAt stE CORE_STATE_HASH_KEY = core ∧
      kvListAt stE CHAT_HISTORY_KEY = kvListAt st CHAT_HISTORY_KEY ∧
      kvGet stE LEGACY_STATE_KEY = none ∧
      getLuminousState ⟨true, true, true, true⟩ stE
        = .ok (stE, some ⟨core, kvListAt st CHAT_HISTORY_KEY⟩) := by
  refine ⟨kvHSet (kvDel st CORE_STATE_HASH_KEY) CORE_STATE_HASH_KEY core, ?_, ?_, ?_, ?_, ?_⟩
  case _ =>
    rw [restoreStateFromBackup.eq_def, hb]
  case _ =>
    show kvHashAt (kvSet (kvDel st CORE_STATE_HASH_KEY) CORE_STATE_HASH_KEY
      (.hash (hsetMany (kvHashAt (kvDel st CORE_STATE_HASH_KEY) CORE_STATE_HASH_KEY) core)))
      CORE_STATE_HASH_KEY = core
    have hdel : kvGet (kvDel st CORE_STATE_HASH_KEY) CORE_STATE_HASH_KEY = none :=
      lookup_filterKeyNe_self _ _
    have hempty : kvHashAt (kvDel st CORE_STATE_HASH_KEY) CORE_STATE_HASH_KEY = [] := by
      unfold kvHashAt
      rw [hdel]
    rw [hempty]
    have hmerge : hsetMany [] core = core := by
      have := hsetMany_append_of_disjoint [] core hnd (fun kv _ => rfl)
      simpa using this
    rw [hmerge]
    unfold kvHashAt kvGet kvSet
    rw [lookup_setPair_self]
  case _ =>
    have hne : CHAT_HISTORY_KEY ≠ CORE_STATE_HASH_KEY := by decide
    show kvListAt (kvSet (kvDel st CORE_STATE_HASH_KEY) CORE_STATE_HASH_KEY _)
      CHAT_HISTORY_KEY = kvListAt st CHAT_HISTORY_KEY
    unfold kvListAt kvGet kvSet kvDel
    rw [lookup_setPair_other _ _ _ _ hne, lookup_filterKeyNe_other _ _ _ hne]
  case _ =>
    have hne : LEGACY_STATE_KEY ≠ CORE_STATE_HASH_KEY := by decide
    show kvGet (kvSet (kvDel st CORE_STATE_HASH_KEY) CORE_STATE_HASH_KEY _)
      LEGACY_STATE_KEY = none
    unfold kvGet kvSet kvDel
    rw [lookup_setPair_other _ _ _ _ hne, lookup_filterKeyNe_other _ _ _ hne]
    exact hleg
  case _ =>
    have hne1 : LEGACY_STATE_KEY ≠ CORE_STATE_HASH_KEY := by decide
    have hne2 : CHAT_HISTORY_KEY ≠ CORE_STATE_HASH_KEY := by decide
    have hlegE : kvGet (kvHSet (kvDel st CORE_STATE_HASH_KEY) CORE_STATE_HASH_KEY core)
        LEGACY_STATE_KEY = none := by
      unfold kvGet kvHSet kvSet kvDel
      rw [lookup_setPair_other _ _ _ _ hne1, lookup_filterKeyNe_other _ _ _ hne1]
      exact hleg
    have hmig : migrateFromLegacyState true true
        (kvHSet (kvDel st CORE_STATE_HASH_KEY) CORE_STATE_HASH_KEY core)
        = .ok (none, kvHSet (kvDel st CORE_STATE_HASH_KEY) CORE_STATE_HASH_KEY core) :=
      migrateFromLegacyState_noop_of_no_legacy true true _ hlegE
    have hhash : kvHashAt (kvHSet (kvDel st CORE_STATE_HASH_KEY) CORE_STATE_HASH_KEY core)
        CORE_STATE_HASH_KEY = core := by
      have hdel : kvGet (kvDel st CORE_STATE_HASH_KEY) CORE_STATE_HASH_KEY = none :=
        lookup_filterKeyNe_self _ _
      have hempty : kvHashAt (kvDel st CORE_STATE_HASH_KEY) CORE_STATE_HASH_KEY = [] := by
        unfold kvHashAt
        rw [hdel]
      have hmerge : hsetMany [] core = core := by
        have := hsetMany_append_of_disjoint [] core hnd (fun kv _ => rfl)
        simpa using this
      unfold kvHashAt kvGet kvHSet kvSet
      rw [hempty, hmerge, lookup_setPair_self]
    have hchat : kvListAt (kvHSet (kvDel st CORE_STATE_HASH_KEY) CORE_STATE_HASH_KEY core)
        CHAT_HISTORY_KEY = kvListAt st CHAT_HISTORY_KEY := by
      unfold kvListAt kvGet kvHSet kvSet kvDel
      rw [lookup_setPair_other _ _ _ _ hne2, lookup_filterKeyNe_other _ _ _ hne2]
    unfold getLuminousState
    rw [show LoadTransport.legacyGetOk ⟨true, true, true, true⟩ = true from rfl,
        show LoadTransport.migrationPipelineOk ⟨true, true, true, true⟩ = true from rfl,
        hmig]
    simp only [hhash, hchat, hcore, Bool.false_eq_true, if_false, Bool.true_eq_false]

/-- Concrete instantiation of `restoreStateFromBackup_spec`. -/
theorem restoreStateFromBackup_spec_witness :
    ∃ stE, restoreStateFromBackup
        [("luminous_core_state_backup:T1",
          RVal.coreBlob [("luminousStatus", "idle")]),
         (CHAT_HISTORY_KEY, RVal.list ["m1", "m2"])]
        "luminous_core_state_backup:T1" = .ok stE ∧
      kvHashAt stE CORE_STATE_HASH_KEY = [("luminousStatus", "idle")] ∧
      kvListAt stE CHAT_HISTORY_KEY =
        kvListAt [("luminous_core_state_backup:T1",
            RVal.coreBlob [("luminousStatus", "idle")]),
           (CHAT_HISTORY_KEY, RVal.list ["m1", "m2"])] CHAT_HISTORY_KEY ∧
      kvGet stE LEGACY_STATE_KEY = none ∧
      getLuminousState ⟨true, true, true, true⟩ stE
        = .ok (stE, some ⟨[("luminousStatus", "idle")],
            kvListAt [("luminous_core_state_backup:T1",
                RVal.coreBlob [("luminousStatus", "idle")]),
               (CHAT_HISTORY_KEY, RVal.list ["m1", "m2"])] CHAT_HISTORY_KEY⟩) :=
  restoreStateFromBackup_spec
    [("luminous_core_state_backup:T1", RVal.coreBlob [("luminousStatus", "idle")]),
     (CHAT_HISTORY_KEY, RVal.list ["m1", "m2"])]
    "luminous_core_state_backup:T1"
    [("luminousStatus", "idle")]
    (by decide) (by decide) (by decide) (by decide)

end LSS
